import Mathlib

/-! Shallow embedding of the preflight validation engine and the job-submission
parameter handling of `zync.py` (class `Job`: `get_preflight_checks`,
`preflight`, `submit`).

Python dynamic values that can flow through a preflight rule are modelled by
`PyVal`. Besides strings and integers, `eval()` of a server-supplied
expression can hand back an arbitrary host-application object whose equality
comparison raises; `PyVal.raising` models such an object, so membership tests
(`in`) are fallible, mirroring the fact that the whole matching loop of
`Job.preflight` sits inside a `try`/`except` block.
-/

inductive PyVal where
  | pyStr (s : String)
  | pyInt (n : Int)
  | raising (tag : Nat)
deriving DecidableEq, Repr

/-- Python `str(x)` for the values modelled by `PyVal` (used by
`matches.append(str(result_item))` in `Job.preflight`). -/
def PyVal.pyStrOf : PyVal → String
  | .pyStr s => s
  | .pyInt n => toString n
  | .raising t => "<object " ++ toString t ++ ">"

/-- Whether the value is an ordinary scalar whose comparisons cannot raise. -/
def PyVal.noRaise : PyVal → Bool
  | .raising _ => false
  | _ => true

/-- Python `==` between two `PyVal`s: comparing a `raising` object raises
(`.error ()`), strings and integers compare structurally, and values of
different types compare unequal without raising. -/
def pyEq : PyVal → PyVal → Except Unit Bool
  | .raising _, _ => .error ()
  | _, .raising _ => .error ()
  | .pyStr a, .pyStr b => .ok (decide (a = b))
  | .pyInt m, .pyInt n => .ok (decide (m = n))
  | _, _ => .ok false

/-- Python `x in cond` for a list `cond`: tests elements left to right and
propagates an exception raised by any individual comparison; the empty list
yields `False` without comparing anything. -/
def pyMem (x : PyVal) : List PyVal → Except Unit Bool
  | [] => .ok false
  | c :: cs =>
    match pyEq x c with
    | .error e => .error e
    | .ok true => .ok true
    | .ok false => pyMem x cs

/-- Result of `eval(preflight_obj['api_call'])`: a Python list, a tuple, or a
single scalar. -/
inductive ApiResult where
  | scalar (v : PyVal)
  | pyList (vs : List PyVal)
  | pyTuple (vs : List PyVal)
deriving DecidableEq, Repr

/-- The `Job.preflight` normalization step: `if (not type(api_result) is list) and
(not type(api_result) is tuple): api_result = [ api_result ]`. -/
def normalizeResult : ApiResult → List PyVal
  | .scalar v => [v]
  | .pyList vs => vs
  | .pyTuple vs => vs

/-- One server-declared preflight check, as consumed by `Job.preflight`. -/
structure PreflightRule where
  api_call : String
  operation_type : String
  condition : List PyVal
  error : String
deriving DecidableEq, Repr

/-- One iteration of the inner matching loop of `Job.preflight` for a single
`result_item`: under `'equal'` the item matches when it is in `condition`,
under `'not_equal'` when it is not; any other `operation_type` runs neither
membership test and never matches. A match is recorded as `str(result_item)`. -/
def matchItem (op : String) (cond : List PyVal) (x : PyVal) : Except Unit (Option String) :=
  if op = "equal" then
    match pyMem x cond with
    | .error e => .error e
    | .ok true => .ok (some x.pyStrOf)
    | .ok false => .ok none
  else if op = "not_equal" then
    match pyMem x cond with
    | .error e => .error e
    | .ok true => .ok none
    | .ok false => .ok (some x.pyStrOf)
  else
    .ok none

/-- The inner `for result_item in api_result` loop of `Job.preflight`,
collecting the matched items in order; an exception raised while processing
any item aborts the whole loop (the enclosing `try` discards the matches
collected so far). -/
def matchLoop (op : String) (cond : List PyVal) : List PyVal → Except Unit (List String)
  | [] => .ok []
  | x :: xs =>
    match matchItem op cond x with
    | .error e => .error e
    | .ok m =>
      match matchLoop op cond xs with
      | .error e => .error e
      | .ok rest =>
        match m with
        | some s => .ok (s :: rest)
        | none => .ok rest

/-- The ambient host-application state `Job.preflight` interacts with:
whether `import maya.cmds` and `import nuke` succeed, and what `eval`
returns (or whether it raises) for each `api_call` expression. -/
structure Env where
  importMayaCmds : Bool
  importNuke : Bool
  eval : String → Except Unit ApiResult

/-- The whole `try` block of one iteration of the outer loop of
`Job.preflight`: evaluate the rule's `api_call`, normalizeResult, and run the
matching loop. `none` means some exception was raised and the rule is
inconclusive (`except Exception: continue`); `some matches` means the block
completed with that match list. -/
def evalRule (env : Env) (r : PreflightRule) : Option (List String) :=
  match env.eval r.api_call with
  | .error _ => none
  | .ok res =>
    match matchLoop r.operation_type r.condition (normalizeResult res) with
    | .error _ => none
    | .ok ms => some ms

/-- The outer `for preflight_obj in preflight_list` loop of `Job.preflight`:
a rule whose `try` block raised is skipped; otherwise, if any matches were
collected, a `ZyncPreflightError` is raised with the rule's `error` template,
`%match%` replaced by the comma-joined matches, and no further rule is
processed. -/
def runChecks (env : Env) : List PreflightRule → Except String Unit
  | [] => .ok ()
  | r :: rs =>
    match evalRule env r with
    | none => runChecks env rs
    | some matched =>
      if matched.length > 0 then
        .error (r.error.replace "%match%" (String.intercalate ", " matched))
      else
        runChecks env rs

/-- Procedure `Job.preflight` after the rule fetch: when the fetched list is non-empty
and the job type is `'maya'` (resp. `'nuke'`), a failing `import maya.cmds`
(resp. `import nuke`) returns immediately; otherwise the rule loop runs.
`.error msg` models a raised `ZyncPreflightError(msg)`. -/
def preflight (env : Env) (job_type : Option String) (preflight_list : List PreflightRule) :
    Except String Unit :=
  if preflight_list.length > 0 then
    if job_type = some "maya" then
      if env.importMayaCmds then runChecks env preflight_list else .ok ()
    else if job_type = some "nuke" then
      if env.importNuke then runChecks env preflight_list else .ok ()
    else
      runChecks env preflight_list
  else
    runChecks env preflight_list

/-- The parsed reply of `lib/get_preflight_checks.php`: envelope `code == 0`
carries the rule list in `response`; a non-zero code carries an error
message. -/
inductive FetchReply where
  | success (rules : List PreflightRule)
  | failure (msg : String)

/-- Procedure `Job.get_preflight_checks`: raises a `ZyncError` when `self.job_type` is
`None`, before building the request; otherwise performs the HTTP request for
the job type and either returns the rules (envelope code 0) or raises a
`ZyncError` with the service message. The second component records the
`job_type` parameters of the network requests actually issued. -/
def get_preflight_checks (job_type : Option String) (server : String → FetchReply) :
    Except String (List PreflightRule) × List String :=
  match job_type with
  | none =>
    (.error "job_type parameter not set. This is probably because your subclass of Job does not define it.", [])
  | some jt =>
    match server jt with
    | .success rules => (.ok rules, [jt])
    | .failure msg => (.error ("Could not retrieve list of preflight checks: " ++ msg), [jt])

/-! Submission-parameter handling of `Job.submit`. Python dicts are modelled as
association lists with unique keys; `dictSet` is Python `d[k] = v` (replaces
the value in place when the key exists, appends otherwise) and `dictUpdate`
is Python `d.update(other)`.
-/

inductive JsonVal where
  | jNull
  | jBool (b : Bool)
  | jNum (n : Int)
  | jStr (s : String)
  | jArr (items : List JsonVal)
  | jObj (fields : List (String × JsonVal))
deriving Repr

mutual

/-- Model of `json.dumps` on the values modelled by `JsonVal` (string escaping of
special characters is not modelled; the claims only need that the structured
value is turned into its encoded string form). -/
def dumps : JsonVal → String
  | .jNull => "null"
  | .jBool true => "true"
  | .jBool false => "false"
  | .jNum n => toString n
  | .jStr s => "\"" ++ s ++ "\""
  | .jArr items => "[" ++ dumpsArr items ++ "]"
  | .jObj fields => "\x7b" ++ dumpsObj fields ++ "\x7d"

/-- Comma-joined serialization of a JSON array's elements. -/
def dumpsArr : List JsonVal → String
  | [] => ""
  | [x] => dumps x
  | x :: y :: rest => dumps x ++ ", " ++ dumpsArr (y :: rest)

/-- Comma-joined serialization of a JSON object's fields. -/
def dumpsObj : List (String × JsonVal) → String
  | [] => ""
  | [(k, v)] => "\"" ++ k ++ "\": " ++ dumps v
  | (k, v) :: y :: rest => "\"" ++ k ++ "\": " ++ dumps v ++ ", " ++ dumpsObj (y :: rest)

end

/-- A Python dict of submission parameters, as an association list. -/
abbrev Params := List (String × JsonVal)

/-- Python `d[k] = v`: replace the value of an existing key, else append. -/
def dictSet : Params → String → JsonVal → Params
  | [], k, v => [(k, v)]
  | (k0, v0) :: rest, k, v =>
    if k0 = k then (k0, v) :: rest else (k0, v0) :: dictSet rest k v

/-- Python `d[k]` / `k in d` combined: the value stored at `k`, if any. -/
def dictGet : Params → String → Option JsonVal
  | [], _ => none
  | (k0, v0) :: rest, k => if k0 = k then some v0 else dictGet rest k

/-- Python `d.update(other)`: set each entry of `other` into `d` in order. -/
def dictUpdate (d other : Params) : Params :=
  other.foldl (fun acc kv => dictSet acc kv.1 kv.2) d

/-- Constant `DEFAULT_INSTANCE_TYPE` from `zync.py`. -/
def DEFAULT_INSTANCE_TYPE : String := "ZYNC16"

/-- The defaults built into `submit_params` by `Job.submit` before the
caller's params are applied, assignment by assignment. -/
def defaultSubmitParams : Params :=
  let submit_params : Params := []
  let submit_params := dictSet submit_params "instance_type" (.jStr DEFAULT_INSTANCE_TYPE)
  let submit_params := dictSet submit_params "upload_only" (.jNum 0)
  let submit_params := dictSet submit_params "start_new_slots" (.jNum 1)
  let submit_params := dictSet submit_params "chunk_size" (.jNum 1)
  let submit_params := dictSet submit_params "distributed" (.jNum 0)
  let submit_params := dictSet submit_params "num_instances" (.jNum 1)
  let submit_params := dictSet submit_params "skip_check" (.jNum 0)
  let submit_params := dictSet submit_params "notify_complete" (.jNum 0)
  let submit_params := dictSet submit_params "job_subtype" (.jStr "render")
  submit_params

/-- State of `submit_params` right after `submit_params.update(params)` in
`Job.submit` (lines building the merged mapping, before the `scene_info`
special case). -/
def submitMerged (params : Params) : Params :=
  dictUpdate defaultSubmitParams params

/-- The outbound mapping of `Job.submit`: the merged params, with
`scene_info`, when present, replaced by its `json.dumps` string encoding. -/
def buildSubmitParams (params : Params) : Params :=
  match dictGet (submitMerged params) "scene_info" with
  | some v => dictSet (submitMerged params) "scene_info" (.jStr (dumps v))
  | none => submitMerged params

/-- The observable effect of `Job.submit` on parameter data: the outbound
mapping that is urlencoded and POSTed, paired with the caller's `params`
dict as it stands after the call (`Job.submit` writes only into the fresh
`submit_params` dict, so the caller's dict is returned as received). -/
def submitSend (params : Params) : Params × Params :=
  (buildSubmitParams params, params)

/-! Helper lemmas about the matching loop and the dict operations. -/

/-- Matching predicate as the specification words it: under `equal` a scalar
matches when it is a member of `condition`, under `not_equal` when it is not,
and under any other operation it never matches. Stated on spec side, to be
compared with the loop taken from the source. -/
def specMatches (op : String) (cond : List PyVal) (x : PyVal) : Bool :=
  if op = "equal" then decide (x ∈ cond)
  else if op = "not_equal" then !(decide (x ∈ cond))
  else false

theorem pyEq_noRaise (x c : PyVal) (hx : x.noRaise = true) (hc : c.noRaise = true) :
    pyEq x c = .ok (decide (x = c)) := by
  cases x <;> cases c <;> simp_all [pyEq, PyVal.noRaise]

theorem pyMem_noRaise (x : PyVal) (cond : List PyVal) (hx : x.noRaise = true)
    (hc : ∀ c ∈ cond, c.noRaise = true) :
    pyMem x cond = .ok (decide (x ∈ cond)) := by
  induction cond with
  | nil => simp [pyMem]
  | cons c cs ih =>
    have hchead : c.noRaise = true := hc c (List.mem_cons_self c cs)
    have htail : ∀ d ∈ cs, d.noRaise = true := fun d hd => hc d (List.mem_cons_of_mem c hd)
    by_cases hxc : x = c
    · subst hxc
      simp [pyMem, pyEq_noRaise x x hx hx]
    · simp [pyMem, pyEq_noRaise x c hx hchead, hxc, ih htail]

theorem matchItem_noRaise (op : String) (cond : List PyVal) (x : PyVal)
    (hx : x.noRaise = true) (hc : ∀ c ∈ cond, c.noRaise = true) :
    matchItem op cond x =
      .ok (if specMatches op cond x then some x.pyStrOf else none) := by
  by_cases hop : op = "equal"
  · by_cases hmem : x ∈ cond <;>
      simp [matchItem, specMatches, hop, pyMem_noRaise x cond hx hc, hmem]
  · by_cases hop2 : op = "not_equal"
    · by_cases hmem : x ∈ cond <;>
        simp [matchItem, specMatches, hop, hop2, pyMem_noRaise x cond hx hc, hmem]
    · simp [matchItem, specMatches, hop, hop2]

theorem matchLoop_noRaise (op : String) (cond items : List PyVal)
    (hc : ∀ c ∈ cond, c.noRaise = true) (hi : ∀ x ∈ items, x.noRaise = true) :
    matchLoop op cond items =
      .ok ((items.filter (fun x => specMatches op cond x)).map PyVal.pyStrOf) := by
  induction items with
  | nil => simp [matchLoop]
  | cons x xs ih =>
    have hxhead : x.noRaise = true := hi x (List.mem_cons_self x xs)
    have htail : ∀ y ∈ xs, y.noRaise = true := fun y hy => hi y (List.mem_cons_of_mem x hy)
    by_cases hm : specMatches op cond x = true <;>
      simp [matchLoop, matchItem_noRaise op cond x hxhead hc, hm, ih htail,
        List.filter_cons]

theorem runChecks_cons_skip (env : Env) (r : PreflightRule) (rs : List PreflightRule)
    (h : evalRule env r = none) : runChecks env (r :: rs) = runChecks env rs := by
  simp [runChecks, h]

theorem runChecks_cons_nomatch (env : Env) (r : PreflightRule) (rs : List PreflightRule)
    (h : evalRule env r = some []) : runChecks env (r :: rs) = runChecks env rs := by
  simp [runChecks, h]

theorem runChecks_cons_violation (env : Env) (r : PreflightRule) (rs : List PreflightRule)
    (ms : List String) (h : evalRule env r = some ms) (hms : ms ≠ []) :
    runChecks env (r :: rs) =
      .error (r.error.replace "%match%" (String.intercalate ", " ms)) := by
  have hlen : 0 < ms.length := List.length_pos.mpr hms
  simp [runChecks, h, hlen]

theorem dictGet_dictSet (d : Params) (k k2 : String) (v : JsonVal) :
    dictGet (dictSet d k v) k2 = if k = k2 then some v else dictGet d k2 := by
  induction d with
  | nil => simp [dictSet, dictGet]
  | cons kv rest ih =>
    obtain ⟨k0, v0⟩ := kv
    by_cases h0 : k0 = k
    · subst h0
      by_cases h2 : k0 = k2 <;> simp [dictSet, dictGet, h2]
    · by_cases h2 : k0 = k2
      · subst h2
        have : ¬ k = k0 := fun h => h0 h.symm
        simp [dictSet, dictGet, h0, this]
      · simp [dictSet, dictGet, h0, h2, ih]

theorem dictGet_eq_none (other : Params) (k : String)
    (h : k ∉ other.map Prod.fst) : dictGet other k = none := by
  induction other with
  | nil => simp [dictGet]
  | cons kv rest ih =>
    obtain ⟨k0, v0⟩ := kv
    simp only [List.map_cons, List.mem_cons] at h
    push_neg at h
    have : k0 ≠ k := fun hk => h.1 hk.symm
    simp [dictGet, this, ih h.2]

theorem dictUpdate_cons (d : Params) (k0 : String) (v0 : JsonVal) (rest : Params) :
    dictUpdate d ((k0, v0) :: rest) = dictUpdate (dictSet d k0 v0) rest := rfl

theorem dictGet_dictUpdate (d other : Params) (hnd : (other.map Prod.fst).Nodup)
    (k : String) :
    dictGet (dictUpdate d other) k =
      match dictGet other k with
      | some v => some v
      | none => dictGet d k := by
  induction other generalizing d with
  | nil => simp [dictUpdate, dictGet]
  | cons kv rest ih =>
    obtain ⟨k0, v0⟩ := kv
    simp only [List.map_cons, List.nodup_cons] at hnd
    rw [dictUpdate_cons, ih (dictSet d k0 v0) hnd.2]
    by_cases h0 : k0 = k
    · subst h0
      have hnone : dictGet rest k0 = none := dictGet_eq_none rest k0 hnd.1
      simp [hnone, dictGet, dictGet_dictSet]
    · simp [dictGet, h0, dictGet_dictSet, fun h => h0 h]

/-! Concrete material used by the witnesses below. -/

/-- A concrete host environment: `getBad()` returns the list `["A"]`,
`boom()` raises on evaluation, `getMixed()` returns a list whose second
element is an object whose comparison raises, and anything else returns the
scalar `"ok"`. -/
def wEnv : Env where
  importMayaCmds := true
  importNuke := true
  eval := fun s =>
    if s = "getBad()" then .ok (.pyList [.pyStr "A"])
    else if s = "boom()" then .error ()
    else if s = "getMixed()" then .ok (.pyList [.pyStr "A", .raising 0])
    else .ok (.scalar (.pyStr "ok"))

/-- The same evaluation environment with both application imports failing. -/
def wEnvNoApp : Env where
  importMayaCmds := false
  importNuke := false
  eval := wEnv.eval

/-- A rule that matches `"A"` under `equal`. -/
def wRuleFirst : PreflightRule :=
  { api_call := "getBad()", operation_type := "equal",
    condition := [.pyStr "A"], error := "Bad: %match%" }

/-- A second rule that would also match `"A"` under `equal`. -/
def wRuleSecond : PreflightRule :=
  { api_call := "getBad()", operation_type := "equal",
    condition := [.pyStr "A"], error := "Second: %match%" }

/-- A rule whose expression raises on evaluation. -/
def wRuleBoom : PreflightRule :=
  { api_call := "boom()", operation_type := "equal",
    condition := [.pyStr "A"], error := "Boom: %match%" }

/-- A rule whose result sequence raises partway through matching, after its
first element already matched. -/
def wRuleMixed : PreflightRule :=
  { api_call := "getMixed()", operation_type := "equal",
    condition := [.pyStr "A"], error := "Mixed: %match%" }

/-- A rule with an operation type other than `equal` / `not_equal`. -/
def wRuleOther : PreflightRule :=
  { api_call := "getMixed()", operation_type := "greater_than",
    condition := [.pyStr "A"], error := "Other: %match%" }

/-- A structured `scene_info` value. -/
def wSceneInfo : JsonVal :=
  .jObj [("files", .jArr [.jStr "a.ma"]), ("version", .jStr "2014")]

/-- Caller parameters carrying a structured `scene_info`. -/
def wSubmitParams : Params :=
  [("scene_info", wSceneInfo), ("camera", .jStr "cam1")]

/-! The claims. -/

/-- C1: when a rule's evaluation and matching complete with at least one
matched value, the preflight loop raises a `ZyncPreflightError` whose message
is that rule's `error` template with `%match%` replaced by the comma-joined
matched values in the order they were encountered, and the outcome does not
depend on the rules after that one — they are never evaluated. -/
theorem preflight_first_violation (env : Env) (pre : List PreflightRule)
    (r : PreflightRule) (post : List PreflightRule) (ms : List String)
    (hpre : ∀ q ∈ pre, evalRule env q = none ∨ evalRule env q = some [])
    (hr : evalRule env r = some ms) (hms : ms ≠ []) :
    runChecks env (pre ++ r :: post) =
      .error (r.error.replace "%match%" (String.intercalate ", " ms)) := by
  induction pre with
  | nil => simpa using runChecks_cons_violation env r post ms hr hms
  | cons q qs ih =>
    have hq := hpre q (List.mem_cons_self q qs)
    have hrest : ∀ p ∈ qs, evalRule env p = none ∨ evalRule env p = some [] :=
      fun p hp => hpre p (List.mem_cons_of_mem q hp)
    rcases hq with hq | hq
    · rw [List.cons_append, runChecks_cons_skip env q _ hq]
      exact ih hrest
    · rw [List.cons_append, runChecks_cons_nomatch env q _ hq]
      exact ih hrest

/-- Witness for C1: two rules that both match; only the first rule's
formatted message is raised. -/
theorem preflight_first_violation_witness :
    runChecks wEnv [wRuleFirst, wRuleSecond] =
      .error (wRuleFirst.error.replace "%match%" (String.intercalate ", " ["A"])) :=
  preflight_first_violation wEnv [] wRuleFirst [wRuleSecond] ["A"]
    (by simp) (by decide) (by simp)

/-- C2: a non-list non-tuple evaluation result is treated as a one-element
sequence; for raise-free scalars, the matching loop collects, in result
order, the string representations of exactly those scalars that are members
of `condition` under `equal` and non-members under `not_equal`; and a rule
whose loop completed with no matched scalar raises nothing. -/
theorem preflight_match_semantics :
    (∀ v : PyVal, normalizeResult (ApiResult.scalar v) = [v]) ∧
    (∀ (op : String) (cond items : List PyVal),
      (∀ c ∈ cond, c.noRaise = true) → (∀ x ∈ items, x.noRaise = true) →
      matchLoop op cond items =
        .ok ((items.filter (fun x => specMatches op cond x)).map PyVal.pyStrOf)) ∧
    (∀ (env : Env) (r : PreflightRule) (rs : List PreflightRule),
      evalRule env r = some [] → runChecks env (r :: rs) = runChecks env rs) :=
  ⟨fun _ => rfl, matchLoop_noRaise, runChecks_cons_nomatch⟩

/-- Witness for C2: an `equal` rule with condition `{A, B}` over the result
sequence `[A, C]` collects exactly `["A"]`. -/
theorem preflight_match_semantics_witness :
    matchLoop "equal" [PyVal.pyStr "A", PyVal.pyStr "B"]
      [PyVal.pyStr "A", PyVal.pyStr "C"] = .ok ["A"] :=
  (preflight_match_semantics.2.1 "equal" [PyVal.pyStr "A", PyVal.pyStr "B"]
    [PyVal.pyStr "A", PyVal.pyStr "C"] (by decide) (by decide)).trans rfl

/-- C3: a rule whose expression evaluation raises is skipped and the loop
continues with the next rule; in particular, when the first of two rules
raises on evaluation and the second rule matches its blocking condition, the
violation raised is built from the second rule. -/
theorem preflight_skips_erroring_rule :
    (∀ (env : Env) (r : PreflightRule) (rs : List PreflightRule),
      env.eval r.api_call = .error () →
      runChecks env (r :: rs) = runChecks env rs) ∧
    (∀ (env : Env) (r1 r2 : PreflightRule) (ms : List String),
      env.eval r1.api_call = .error () → evalRule env r2 = some ms → ms ≠ [] →
      runChecks env [r1, r2] =
        .error (r2.error.replace "%match%" (String.intercalate ", " ms))) := by
  have hskip : ∀ (env : Env) (r : PreflightRule) (rs : List PreflightRule),
      env.eval r.api_call = .error () → runChecks env (r :: rs) = runChecks env rs := by
    intro env r rs h
    exact runChecks_cons_skip env r rs (by simp [evalRule, h])
  refine ⟨hskip, fun env r1 r2 ms h1 h2 hms => ?_⟩
  rw [show ([r1, r2] : List PreflightRule) = r1 :: [r2] from rfl,
    hskip env r1 [r2] h1]
  exact runChecks_cons_violation env r2 [] ms h2 hms

/-- Witness for C3: the first rule raises on evaluation, the second matches;
the raised message comes from the second rule. -/
theorem preflight_skips_erroring_rule_witness :
    runChecks wEnv [wRuleBoom, wRuleSecond] =
      .error (wRuleSecond.error.replace "%match%" (String.intercalate ", " ["A"])) :=
  preflight_skips_erroring_rule.2 wEnv wRuleBoom wRuleSecond ["A"]
    rfl (by decide) (by simp)

/-- C4: with a non-empty rule list, when the job type's application module
fails to import (`maya` with `import maya.cmds` failing, `nuke` with
`import nuke` failing — the two job types that have such a module),
`preflight` returns normally, whatever the rules and the evaluation
environment. -/
theorem preflight_skips_when_scripting_unavailable (env : Env)
    (job_type : Option String) (rules : List PreflightRule) (hne : rules ≠ [])
    (h : (job_type = some "maya" ∧ env.importMayaCmds = false) ∨
         (job_type = some "nuke" ∧ env.importNuke = false)) :
    preflight env job_type rules = .ok () := by
  have hlen : 0 < rules.length := List.length_pos.mpr hne
  rcases h with ⟨hjt, him⟩ | ⟨hjt, him⟩ <;> subst hjt <;>
    simp [preflight, hlen, him]

/-- Witness for C4: a maya job with a failing `import maya.cmds` passes even
though its only rule would match. -/
theorem preflight_skips_when_scripting_unavailable_witness :
    preflight wEnvNoApp (some "maya") [wRuleFirst] = .ok () :=
  preflight_skips_when_scripting_unavailable wEnvNoApp (some "maya")
    [wRuleFirst] (by simp) (Or.inl ⟨rfl, rfl⟩)

/-- C5: with an empty fetched rule list, `preflight` returns normally for
every environment and job type — in particular whether or not the
application scripting modules are importable, so the importability check is
never consulted. -/
theorem preflight_empty_rules_pass (env : Env) (job_type : Option String) :
    preflight env job_type [] = .ok () := rfl

/-- C6 counterexample: for the unrecognized job type `"blender"`, the rule
fetch does not fail before the network: the request is issued (with the
parameter `job_type=blender` — the trace component is non-empty) and, when
the service replies with envelope code 0, the fetch even returns normally. -/
theorem get_preflight_checks_unrecognized_counterexample :
    get_preflight_checks (some "blender") (fun _ => .success []) =
      (.ok [], ["blender"]) := rfl

/-- C6 amended: only an unset (`None`) `job_type` makes
`get_preflight_checks` fail — with a `ZyncError` — before any network
request is issued; the error message and the empty request trace do not
depend on the server. -/
theorem get_preflight_checks_unset_fails_before_network
    (server : String → FetchReply) :
    get_preflight_checks none server =
      (.error "job_type parameter not set. This is probably because your subclass of Job does not define it.",
        []) := rfl

/-- C7: the merged submission mapping is the nine built-in defaults
shallow-merged with the caller's parameters, the caller winning on every key
collision. -/
theorem submit_merge_caller_wins (params : Params)
    (hnd : (params.map Prod.fst).Nodup) :
    (∀ k, dictGet (submitMerged params) k =
      match dictGet params k with
      | some v => some v
      | none => dictGet defaultSubmitParams k) ∧
    defaultSubmitParams =
      [("instance_type", JsonVal.jStr "ZYNC16"), ("upload_only", JsonVal.jNum 0),
       ("start_new_slots", JsonVal.jNum 1), ("chunk_size", JsonVal.jNum 1),
       ("distributed", JsonVal.jNum 0), ("num_instances", JsonVal.jNum 1),
       ("skip_check", JsonVal.jNum 0), ("notify_complete", JsonVal.jNum 0),
       ("job_subtype", JsonVal.jStr "render")] :=
  ⟨fun k => dictGet_dictUpdate defaultSubmitParams params hnd k, rfl⟩

/-- Witness for C7: the caller's `chunk_size` overrides the default, and an
untouched default (`instance_type`) survives the merge. -/
theorem submit_merge_caller_wins_witness :
    dictGet (submitMerged [("chunk_size", JsonVal.jNum 5)]) "chunk_size" =
      some (JsonVal.jNum 5) ∧
    dictGet (submitMerged [("chunk_size", JsonVal.jNum 5)]) "instance_type" =
      some (JsonVal.jStr "ZYNC16") := by
  have h := submit_merge_caller_wins [("chunk_size", JsonVal.jNum 5)] (by simp)
  exact ⟨(h.1 "chunk_size").trans rfl, (h.1 "instance_type").trans rfl⟩

/-- C8: when the caller's parameters carry `scene_info`, the outbound
mapping carries its `json.dumps` string encoding in its place, every other
key of the outbound mapping is the plain merge result, and the caller's
mapping as observed after the call is exactly the one passed in (the code
only ever writes into the fresh `submit_params` dict). -/
theorem submit_scene_info_serialized (params : Params) (v : JsonVal)
    (hnd : (params.map Prod.fst).Nodup)
    (hsi : dictGet params "scene_info" = some v) :
    dictGet (submitSend params).1 "scene_info" = some (JsonVal.jStr (dumps v)) ∧
    (∀ k, k ≠ "scene_info" →
      dictGet (submitSend params).1 k = dictGet (submitMerged params) k) ∧
    (submitSend params).2 = params := by
  have hmerged : dictGet (submitMerged params) "scene_info" = some v := by
    rw [submitMerged, dictGet_dictUpdate defaultSubmitParams params hnd, hsi]
  have hbuild : buildSubmitParams params =
      dictSet (submitMerged params) "scene_info" (JsonVal.jStr (dumps v)) := by
    unfold buildSubmitParams
    rw [hmerged]
  refine ⟨?_, ?_, rfl⟩
  · show dictGet (buildSubmitParams params) "scene_info" = _
    rw [hbuild, dictGet_dictSet, if_pos rfl]
  · intro k hk
    show dictGet (buildSubmitParams params) k = _
    rw [hbuild, dictGet_dictSet, if_neg (fun hkk => hk hkk.symm)]

/-- Witness for C8: a structured `scene_info` is sent as its string encoding
and the caller's dict is returned as it was passed. -/
theorem submit_scene_info_serialized_witness :
    dictGet (submitSend wSubmitParams).1 "scene_info" =
      some (JsonVal.jStr (dumps wSceneInfo)) ∧
    (submitSend wSubmitParams).2 = wSubmitParams := by
  have h := submit_scene_info_serialized wSubmitParams wSceneInfo (by decide) rfl
  exact ⟨h.1, h.2.2⟩

/-- C9: a rule whose `operation_type` is neither `equal` nor `not_equal`
matches no scalar of its evaluation result — its matching loop always
returns the empty match list without raising — so the rule never contributes
a violation, whatever its result, condition, or error template. -/
theorem unknown_operation_never_raises :
    (∀ (op : String) (cond items : List PyVal), op ≠ "equal" → op ≠ "not_equal" →
      matchLoop op cond items = .ok []) ∧
    (∀ (env : Env) (r : PreflightRule) (rs : List PreflightRule),
      r.operation_type ≠ "equal" → r.operation_type ≠ "not_equal" →
      runChecks env (r :: rs) = runChecks env rs) := by
  have hloop : ∀ (op : String) (cond items : List PyVal),
      op ≠ "equal" → op ≠ "not_equal" → matchLoop op cond items = .ok [] := by
    intro op cond items h1 h2
    induction items with
    | nil => simp [matchLoop]
    | cons x xs ih => simp [matchLoop, matchItem, h1, h2, ih]
  refine ⟨hloop, fun env r rs h1 h2 => ?_⟩
  cases heval : env.eval r.api_call with
  | error e => exact runChecks_cons_skip env r rs (by simp [evalRule, heval])
  | ok res =>
    exact runChecks_cons_nomatch env r rs (by
      simp [evalRule, heval,
        hloop r.operation_type r.condition (normalizeResult res) h1 h2])

/-- Witness for C9: a `greater_than` rule over a result list that even
contains an object with raising comparison neither matches nor raises. -/
theorem unknown_operation_never_raises_witness :
    runChecks wEnv [wRuleOther] = runChecks wEnv [] :=
  unknown_operation_never_raises.2 wEnv wRuleOther [] (by decide) (by decide)

/-- C10: a violation can only come from a rule whose evaluation and entire
matching loop completed without an exception: when the loop raises partway
through a rule's result sequence, the matches already collected are
discarded and the rule behaves exactly as if skipped; and a violation raised
on a rule list either comes from the tail or from a head rule whose `try`
block completed with a non-empty match list. -/
theorem violation_requires_completed_rule :
    (∀ (env : Env) (r : PreflightRule) (rs : List PreflightRule) (res : ApiResult),
      env.eval r.api_call = .ok res →
      matchLoop r.operation_type r.condition (normalizeResult res) = .error () →
      runChecks env (r :: rs) = runChecks env rs) ∧
    (∀ (env : Env) (r : PreflightRule) (rs : List PreflightRule) (msg : String),
      runChecks env (r :: rs) = .error msg →
      runChecks env rs = .error msg ∨
      ∃ ms, evalRule env r = some ms ∧ ms ≠ [] ∧
        msg = r.error.replace "%match%" (String.intercalate ", " ms)) := by
  constructor
  · intro env r rs res heval hloop
    exact runChecks_cons_skip env r rs (by simp [evalRule, heval, hloop])
  · intro env r rs msg h
    cases hev : evalRule env r with
    | none =>
      rw [runChecks_cons_skip env r rs hev] at h
      exact Or.inl h
    | some ms =>
      by_cases hms : ms = []
      · subst hms
        rw [runChecks_cons_nomatch env r rs hev] at h
        exact Or.inl h
      · rw [runChecks_cons_violation env r rs ms hev hms] at h
        simp only [Except.error.injEq] at h
        exact Or.inr ⟨ms, rfl, hms, h.symm⟩

/-- Witness for C10: a rule whose first result element matches but whose
second element raises during the membership test contributes nothing — the
list behaves as if the rule were absent. -/
theorem violation_requires_completed_rule_witness :
    runChecks wEnv [wRuleMixed, wRuleSecond] = runChecks wEnv [wRuleSecond] :=
  violation_requires_completed_rule.1 wEnv wRuleMixed [wRuleSecond]
    (ApiResult.pyList [PyVal.pyStr "A", PyVal.raising 0]) rfl rfl
